import Mathlib

/-!
Verification of the WebGL cube demo (camdenorrb/WebGLTesting).

The program is a WebGL boilerplate demo whose only stateful component is the
frame clock / rolling-average FPS tracker living in the `render` closure of
`src/unnamed/part_000`.  This file embeds that component, the rotation
accumulator, the shader initialization error paths (as an effect trace), and
the model-view matrix construction of `src/src/draw-scene.js`, and proves the
spec's testable properties about them.

Numbers are modelled as exact rationals (`ℚ`); the separate `JSNum` type
models the IEEE-754 special values (infinities, NaN) exactly where the
degenerate-delta behaviour depends on them — at those inputs no rounding is
involved, so the model is exact there as well.
-/

namespace WebGLCube

/-! ### FPS tracker (src/unnamed/part_000, lines 90–126)

Source state: `frameTimes = []`, `frameCursor = 0`, `numFrames = 0`,
`maxFrames = 500`, `totalFPS = 0`. -/

/-- `const maxFrames = 500` (line 93): the ring capacity N. -/
def maxFrames : ℕ := 500

/-- The FPS tracker's state: the `frameTimes` JS array (dense in every
reachable state), the write cursor, the saturating fill count and the running
sum (lines 90–94). -/
structure FPSState where
  frameTimes : List ℚ
  frameCursor : ℕ
  numFrames : ℕ
  totalFPS : ℚ
deriving Repr, DecidableEq

/-- Startup state (lines 90–94): empty array, cursor 0, count 0, sum 0. -/
def initState : FPSState := ⟨[], 0, 0, 0⟩

/-- `frameTimes[frameCursor] || 0` (line 113): reading an unwritten slot of a
JS array yields `undefined`, which `|| 0` turns into 0.  (On a slot holding a
rational `q`, `q || 0` is `q` itself whether or not `q = 0`, which `getD`
reproduces.) -/
def readSlot (l : List ℚ) (i : ℕ) : ℚ := (l[i]?).getD 0

/-- `frameTimes[frameCursor] = fps` (line 116): a JS array write at an index
that is either inside the array (overwrite) or one past its end (append).
The loop keeps `frameCursor ≤ frameTimes.length`, so these are the only
reachable cases. -/
def writeSlot (l : List ℚ) (i : ℕ) (v : ℚ) : List ℚ :=
  if i < l.length then l.set i v else l ++ [v]

/-- One FPS-tracker update (lines 113–122), parameterized by the inserted
`fps` value — the caller computes `fps = 1 / deltaTime` (line 110), and the
claims quantify over the inserted fps values:

    totalFPS += fps - (frameTimes[frameCursor] || 0);
    frameTimes[frameCursor++] = fps;
    numFrames = Math.max(numFrames, frameCursor);
    frameCursor %= maxFrames;
-/
def update (s : FPSState) (fps : ℚ) : FPSState :=
  let evicted := readSlot s.frameTimes s.frameCursor
  let totalFPS := s.totalFPS + (fps - evicted)
  let frameTimes := writeSlot s.frameTimes s.frameCursor fps
  let cursor1 := s.frameCursor + 1
  let numFrames := max s.numFrames cursor1
  ⟨frameTimes, cursor1 % maxFrames, numFrames, totalFPS⟩

/-- `const averageFPS = totalFPS / numFrames` (line 124), as an exact
rational (in ℚ, division by 0 yields 0). -/
def averageFPS (s : FPSState) : ℚ := s.totalFPS / (s.numFrames : ℚ)

/-- The state after a whole sequence of updates starting from startup. -/
def runUpdates (xs : List ℚ) : FPSState := xs.foldl update initState

/-- Sum of a list after overwriting one in-range entry. -/
theorem sum_set (l : List ℚ) (i : ℕ) (v : ℚ) (h : i < l.length) :
    (l.set i v).sum = l.sum - l[i] + v := by
  induction l generalizing i with
  | nil => simp at h
  | cons a l ih =>
    cases i with
    | zero => simp [List.set]; ring
    | succ n =>
      have hn : n < l.length := by simpa using h
      simp [List.set, ih n hn]
      ring

/-- Unfolding one trailing update. -/
theorem runUpdates_append (xs : List ℚ) (x : ℚ) :
    runUpdates (xs ++ [x]) = update (runUpdates xs) x := by
  simp [runUpdates, List.foldl_append]

/-- The master invariant of the FPS ring buffer, by induction over the update
sequence: writing `k` for the number of updates and `L = min k maxFrames` for
the resident window, the array holds exactly `L` samples, the cursor is
`k % maxFrames`, `numFrames = L`, `totalFPS` is the sum of the last `L`
inserted values, the array sums to `totalFPS`, and each of the last `L`
inserted values sits at its write slot `m % maxFrames`. -/
theorem runUpdates_inv (xs : List ℚ) :
    (runUpdates xs).frameTimes.length = min xs.length maxFrames ∧
    (runUpdates xs).frameCursor = xs.length % maxFrames ∧
    (runUpdates xs).numFrames = min xs.length maxFrames ∧
    (runUpdates xs).totalFPS =
      (xs.drop (xs.length - min xs.length maxFrames)).sum ∧
    (runUpdates xs).frameTimes.sum = (runUpdates xs).totalFPS ∧
    ∀ m, xs.length - min xs.length maxFrames ≤ m → m < xs.length →
      (runUpdates xs).frameTimes[m % maxFrames]? = xs[m]? := by
  induction xs using List.reverseRecOn with
  | nil =>
    refine ⟨by simp [runUpdates, initState], by simp [runUpdates, initState],
      by simp [runUpdates, initState], by simp [runUpdates, initState],
      by simp [runUpdates, initState], ?_⟩
    intro m _ hm
    simp at hm
  | append_singleton xs x ih =>
    obtain ⟨hlen, hcur, hnum, htot, hsum, hget⟩ := ih
    rw [runUpdates_append]
    set s := runUpdates xs with hs
    rcases Nat.lt_or_ge xs.length maxFrames with hlt | hge
    · -- warm-up: the write appends one slot at the end
      have hmin : min xs.length maxFrames = xs.length := Nat.min_eq_left hlt.le
      have hcurk : s.frameCursor = xs.length := by
        rw [hcur, Nat.mod_eq_of_lt hlt]
      have hlenk : s.frameTimes.length = xs.length := by rw [hlen, hmin]
      have hread : readSlot s.frameTimes s.frameCursor = 0 := by
        simp [readSlot, hcurk, List.getElem?_eq_none (le_of_eq hlenk)]
      have hwrite : writeSlot s.frameTimes s.frameCursor x = s.frameTimes ++ [x] := by
        simp [writeSlot, hcurk, hlenk]
      have hmin' : min (xs.length + 1) maxFrames = xs.length + 1 :=
        Nat.min_eq_left hlt
      refine ⟨?_, ?_, ?_, ?_, ?_, ?_⟩
      · simp [update, hwrite, hlenk, hmin']
      · simp [update, hcurk]
      · simp only [update, hcurk, hnum, hmin, List.length_append,
          List.length_singleton, hmin']
        omega
      · simp only [update, hread, hwrite, List.length_append,
          List.length_singleton, hmin', htot, hmin, Nat.sub_self,
          Nat.add_sub_cancel, List.drop_zero, List.sum_append, List.sum_cons,
          List.sum_nil]
        ring
      · simp only [update, hwrite, hread, List.sum_append, List.sum_cons,
          List.sum_nil, hsum, htot, hmin, Nat.sub_self, List.drop_zero]
        ring
      · intro m _ hm
        have hmk : m ≤ xs.length := by
          simp only [List.length_append, List.length_singleton] at hm
          omega
        have hmN : m % maxFrames = m := Nat.mod_eq_of_lt (by omega)
        simp only [update, hwrite, hmN]
        rcases Nat.lt_or_ge m xs.length with hmlt | hmge
        · rw [List.getElem?_append_left (by omega),
            List.getElem?_append_left (by omega)]
          have h := hget m (by omega) hmlt
          rwa [hmN] at h
        · have hmeq : m = xs.length := by omega
          have hL : (s.frameTimes ++ [x])[xs.length]? = some x := by
            rw [← hlenk]
            exact List.getElem?_concat_length _ _
          rw [hmeq, hL]
          exact (List.getElem?_concat_length xs x).symm
    · -- saturated: the write overwrites the slot of the sample from
      -- maxFrames updates ago, which the running sum evicts
      have hmin : min xs.length maxFrames = maxFrames := Nat.min_eq_right hge
      have hmin' : min (xs.length + 1) maxFrames = maxFrames :=
        Nat.min_eq_right (by omega)
      have hN : 0 < maxFrames := by decide
      have hcN : s.frameCursor < maxFrames := by rw [hcur]; exact Nat.mod_lt _ hN
      have hlenN : s.frameTimes.length = maxFrames := by rw [hlen, hmin]
      have hnlen : xs.length - maxFrames < xs.length := by omega
      have hslot : s.frameTimes[s.frameCursor]? = xs[xs.length - maxFrames]? := by
        have h1 := hget (xs.length - maxFrames) (by omega) hnlen
        rwa [← Nat.mod_eq_sub_mod hge, ← hcur] at h1
      have hslot' : s.frameTimes[s.frameCursor]? =
          some (xs.get ⟨xs.length - maxFrames, hnlen⟩) := by
        rw [hslot, List.getElem?_eq_getElem hnlen, List.get_eq_getElem]
      have hread : readSlot s.frameTimes s.frameCursor =
          xs.get ⟨xs.length - maxFrames, hnlen⟩ := by
        simp [readSlot, hslot']
      have hwrite : writeSlot s.frameTimes s.frameCursor x =
          s.frameTimes.set s.frameCursor x := by
        simp [writeSlot, hlenN, hcN]
      have hdrop : xs.drop (xs.length - maxFrames) =
          xs.get ⟨xs.length - maxFrames, hnlen⟩ ::
            xs.drop (xs.length - maxFrames + 1) := by
        rw [List.get_eq_getElem]
        exact List.drop_eq_getElem_cons hnlen
      have htot' : s.totalFPS = xs.get ⟨xs.length - maxFrames, hnlen⟩ +
          (xs.drop (xs.length - maxFrames + 1)).sum := by
        rw [htot, hmin, hdrop, List.sum_cons]
      refine ⟨?_, ?_, ?_, ?_, ?_, ?_⟩
      · simp [update, hwrite, hlenN, hmin']
      · simp only [update, hcur, List.length_append, List.length_singleton,
          maxFrames]
        omega
      · simp only [update, hnum, hmin, List.length_append,
          List.length_singleton, hmin']
        omega
      · have hdrop2 : (xs ++ [x]).drop (xs.length - maxFrames + 1) =
            xs.drop (xs.length - maxFrames + 1) ++ [x] :=
          List.drop_append_of_le_length (by omega)
        have hidx : (xs ++ [x]).length - min (xs ++ [x]).length maxFrames =
            xs.length - maxFrames + 1 := by
          simp only [List.length_append, List.length_singleton, hmin']
          omega
        rw [hidx, hdrop2]
        simp only [update, hread, List.sum_append, List.sum_cons, List.sum_nil,
          htot']
        ring
      · have hclen : s.frameCursor < s.frameTimes.length := by omega
        have hgetc : s.frameTimes[s.frameCursor] =
            xs.get ⟨xs.length - maxFrames, hnlen⟩ := by
          rw [List.getElem?_eq_getElem hclen] at hslot'
          exact Option.some.inj hslot'
        simp only [update, hwrite, hread,
          sum_set s.frameTimes s.frameCursor x hclen, hgetc, hsum, htot']
        ring
      · intro m hm1 hm2
        simp only [List.length_append, List.length_singleton, hmin'] at hm1 hm2
        simp only [update, hwrite]
        rcases Nat.lt_or_ge m xs.length with hmlt | hmge
        · have hne : s.frameCursor ≠ m % maxFrames := by
            rw [hcur]
            simp only [maxFrames] at *
            omega
          rw [List.getElem?_set_ne hne,
            List.getElem?_append_left (by omega)]
          exact hget m (by rw [hmin]; omega) hmlt
        · have hmeq : m = xs.length := by omega
          have hmc : m % maxFrames = s.frameCursor := by
            rw [hmeq, hcur]
          have hsome : (s.frameTimes.set s.frameCursor x)[s.frameCursor]? =
              some x := List.getElem?_set_eq_of_lt x (by omega)
          rw [hmc, hsome, hmeq]
          exact (List.getElem?_concat_length xs x).symm

/-- C1: for every sequence of more than `maxFrames` updates, the running sum
`totalFPS` equals the exact sum of the last `maxFrames` inserted fps values
only, not of all historical values. -/
theorem fps_ring_buffer_last_N (xs : List ℚ) (h : maxFrames < xs.length) :
    (runUpdates xs).totalFPS = (xs.drop (xs.length - maxFrames)).sum := by
  have hinv := (runUpdates_inv xs).2.2.2.1
  rwa [Nat.min_eq_right (by omega)] at hinv

/-- Witness for C1: 501 updates of fps value 1 exceed the capacity 500. -/
theorem fps_ring_buffer_last_N_witness :
    maxFrames < (List.replicate 501 (1 : ℚ)).length ∧
    (runUpdates (List.replicate 501 (1 : ℚ))).totalFPS =
      ((List.replicate 501 (1 : ℚ)).drop
        ((List.replicate 501 (1 : ℚ)).length - maxFrames)).sum :=
  ⟨by norm_num [maxFrames], fps_ring_buffer_last_N _ (by norm_num [maxFrames])⟩

/-- C3: during warm-up (`0 < k < maxFrames` updates so far), the reported
average FPS is the arithmetic mean of exactly the `k` inserted fps values:
the sum divided by `k`, not by `maxFrames`. -/
theorem fps_warmup_average (xs : List ℚ) (h0 : 0 < xs.length)
    (hN : xs.length < maxFrames) :
    averageFPS (runUpdates xs) = xs.sum / (xs.length : ℚ) := by
  obtain ⟨-, -, hnum, htot, -, -⟩ := runUpdates_inv xs
  rw [averageFPS, hnum, htot, Nat.min_eq_left hN.le, Nat.sub_self,
    List.drop_zero]

/-- Witness for C3: after the two updates 10 and 20 the average is their
mean. -/
theorem fps_warmup_average_witness :
    0 < ([10, 20] : List ℚ).length ∧ ([10, 20] : List ℚ).length < maxFrames ∧
    averageFPS (runUpdates [10, 20]) =
      ([10, 20] : List ℚ).sum / (([10, 20] : List ℚ).length : ℚ) :=
  ⟨by decide, by decide, fps_warmup_average [10, 20] (by decide) (by decide)⟩

/-- C4: after every sequence of updates from the startup state, the running
sum equals the sum of the currently resident samples
`frameTimes[0 .. numFrames-1]`. -/
theorem fps_running_sum_matches_ring (xs : List ℚ) :
    (runUpdates xs).totalFPS =
      ((runUpdates xs).frameTimes.take (runUpdates xs).numFrames).sum := by
  obtain ⟨hlen, -, hnum, -, hsum, -⟩ := runUpdates_inv xs
  rw [List.take_of_length_le (le_of_eq (hlen.trans hnum.symm)), hsum]

/-- C5: after every sequence of updates the cursor is the update count modulo
`maxFrames` (hence in `[0, maxFrames)`), and `numFrames` equals
`min count maxFrames` — so it is at most `maxFrames`, saturates there, and
never decreases across a further update. -/
theorem fps_cursor_numFrames_invariants (xs : List ℚ) (x : ℚ) :
    (runUpdates xs).frameCursor = xs.length % maxFrames ∧
    (runUpdates xs).frameCursor < maxFrames ∧
    (runUpdates xs).numFrames = min xs.length maxFrames ∧
    (runUpdates xs).numFrames ≤ maxFrames ∧
    (runUpdates xs).numFrames ≤ (update (runUpdates xs) x).numFrames := by
  obtain ⟨-, hcur, hnum, -, -, -⟩ := runUpdates_inv xs
  refine ⟨hcur, ?_, hnum, ?_, ?_⟩
  · rw [hcur]
    exact Nat.mod_lt _ (by decide)
  · rw [hnum]
    omega
  · simp only [update]
    exact le_max_left _ _

/-! ### IEEE special values for the degenerate-delta input (C2)

`fps = 1 / deltaTime` (line 110) is an IEEE-754 division: when
`deltaTime = 0` it yields `+Infinity`, not a rational.  `JSNum` models a JS
number as either a finite (exact) value or one of the special values; on the
inputs considered here no rounding occurs, so the arithmetic below is the
exact IEEE behaviour. -/

inductive JSNum where
  | num (q : ℚ)
  | posInf
  | negInf
  | nan
deriving Repr, DecidableEq

namespace JSNum

/-- IEEE addition restricted to exact operands. -/
def add : JSNum → JSNum → JSNum
  | nan, _ => nan
  | _, nan => nan
  | num a, num b => num (a + b)
  | num _, posInf => posInf
  | num _, negInf => negInf
  | posInf, num _ => posInf
  | negInf, num _ => negInf
  | posInf, posInf => posInf
  | negInf, negInf => negInf
  | posInf, negInf => nan
  | negInf, posInf => nan

/-- IEEE subtraction restricted to exact operands. -/
def sub : JSNum → JSNum → JSNum
  | nan, _ => nan
  | _, nan => nan
  | num a, num b => num (a - b)
  | num _, posInf => negInf
  | num _, negInf => posInf
  | posInf, num _ => posInf
  | negInf, num _ => negInf
  | posInf, posInf => nan
  | negInf, negInf => nan
  | posInf, negInf => posInf
  | negInf, posInf => negInf

/-- IEEE division restricted to exact operands; `ℚ` has a single zero, which
is IEEE `+0` (the zeroes arising in the program are `x - x` and literal `0`,
both `+0`). -/
def div : JSNum → JSNum → JSNum
  | nan, _ => nan
  | _, nan => nan
  | num a, num b =>
      if b = 0 then (if a = 0 then nan else if 0 < a then posInf else negInf)
      else num (a / b)
  | num _, posInf => num 0
  | num _, negInf => num 0
  | posInf, num b => if 0 ≤ b then posInf else negInf
  | negInf, num b => if 0 ≤ b then negInf else posInf
  | posInf, posInf => nan
  | posInf, negInf => nan
  | negInf, posInf => nan
  | negInf, negInf => nan

/-- JS truthiness of a number: `0`, `-0` and `NaN` are falsy. -/
def truthy : JSNum → Bool
  | num q => decide (q ≠ 0)
  | posInf => true
  | negInf => true
  | nan => false

end JSNum

/-- `x || 0` applied to a possibly-`undefined` array read (line 113). -/
def orZero : Option JSNum → JSNum
  | some w => if w.truthy then w else JSNum.num 0
  | none => JSNum.num 0

/-- The FPS tracker state over JS numbers (lines 90–94). -/
structure FPSStateJS where
  frameTimes : List JSNum
  frameCursor : ℕ
  numFrames : ℕ
  totalFPS : JSNum
deriving Repr, DecidableEq

/-- Startup state over JS numbers. -/
def initStateJS : FPSStateJS := ⟨[], 0, 0, JSNum.num 0⟩

/-- One whole FPS-tracker update (lines 110–122) over JS numbers, taking the
raw `deltaTime` and performing `fps = 1 / deltaTime` by IEEE rules — the code
has no guard whatsoever on `deltaTime`. -/
def updateJS (s : FPSStateJS) (deltaTime : JSNum) : FPSStateJS :=
  let fps := (JSNum.num 1).div deltaTime
  let totalFPS := s.totalFPS.add (fps.sub (orZero s.frameTimes[s.frameCursor]?))
  let frameTimes :=
    if s.frameCursor < s.frameTimes.length then s.frameTimes.set s.frameCursor fps
    else s.frameTimes ++ [fps]
  let cursor1 := s.frameCursor + 1
  ⟨frameTimes, cursor1 % maxFrames, max s.numFrames cursor1, totalFPS⟩

/-- `averageFPS = totalFPS / numFrames` (line 124) over JS numbers. -/
def averageJS (s : FPSStateJS) : JSNum := s.totalFPS.div (JSNum.num s.numFrames)

/-- C2 (code behaviour at the failing input): an update with
`deltaSeconds = 0` makes the reported average `+Infinity` — the code applies
no skip/clamp policy, the `1 / 0` division produces `+Infinity`, it is stored
in `totalFPS`, and it survives a subsequent normal update (fps 60), so the
disallowed output propagates into every later reported average. -/
theorem degenerate_delta_produces_infinity :
    averageJS (updateJS initStateJS (JSNum.num 0)) = JSNum.posInf ∧
    averageJS (updateJS (updateJS initStateJS (JSNum.num 0))
      (JSNum.num (1 / 60))) = JSNum.posInf := by
  constructor <;>
    norm_num [averageJS, updateJS, initStateJS, orZero, JSNum.div, JSNum.sub,
      JSNum.add, JSNum.truthy, maxFrames]

/-! ### Frame clock and rotation accumulator (src/unnamed/part_000, lines 85–108)

Source state: `previousTime = 0`, `cubeRotation = 0.0`.  Each frame:

    now *= 0.001;
    deltaTime = now - previousTime;
    previousTime = now;
    drawScene(gl, programInfo, buffers, cubeRotation);
    cubeRotation += deltaTime;
-/

/-- The render loop's clock/rotation state (lines 85–88). -/
structure ClockState where
  previousTime : ℚ
  cubeRotation : ℚ
deriving Repr, DecidableEq

/-- Startup values (lines 85–87). -/
def clockInit : ClockState := ⟨0, 0⟩

/-- What one invocation of `render(now)` produces: the updated state, the
`deltaTime` it computed, and the rotation argument it passed to `drawScene`
(lines 100–108; the draw happens before the rotation is advanced). -/
structure FrameResult where
  state : ClockState
  deltaTime : ℚ
  drawArg : Option ℚ
deriving Repr, DecidableEq

/-- One `render` invocation with the host's raw millisecond timestamp
(lines 100–108). -/
def renderStep (s : ClockState) (nowMs : ℚ) : FrameResult :=
  let now := nowMs * 0.001
  let deltaTime := now - s.previousTime
  { state := ⟨now, s.cubeRotation + deltaTime⟩
    deltaTime := deltaTime
    drawArg := some s.cubeRotation }

/-- Advancing the clock state by one frame. -/
def stepState (s : ClockState) (t : ℚ) : ClockState := (renderStep s t).state

/-- The clock state after a stream of frame timestamps. -/
def runFrames (ts : List ℚ) : ClockState := ts.foldl stepState clockInit

/-- The sequence of `deltaTime` values the loop observes on a timestamp
stream, starting from a given state. -/
def framesDeltas (s : ClockState) : List ℚ → List ℚ
  | [] => []
  | t :: ts => (renderStep s t).deltaTime :: framesDeltas (renderStep s t).state ts

/-- The rotation accumulator gains exactly the sum of the observed deltas. -/
theorem foldl_stepState_cubeRotation (ts : List ℚ) : ∀ s : ClockState,
    (ts.foldl stepState s).cubeRotation = s.cubeRotation + (framesDeltas s ts).sum := by
  induction ts with
  | nil => intro s; simp [framesDeltas]
  | cons t ts ih =>
    intro s
    rw [List.foldl_cons, ih (stepState s t), framesDeltas, List.sum_cons]
    simp only [stepState, renderStep]
    ring

/-- The clock's `previousTime` after a run is the last converted timestamp
(or the starting value on an empty run). -/
theorem foldl_stepState_previousTime (ts : List ℚ) : ∀ s : ClockState,
    (ts.foldl stepState s).previousTime =
      ((ts.map (fun u => u * 0.001)).getLastD s.previousTime) := by
  induction ts with
  | nil => intro s; simp
  | cons t ts ih =>
    intro s
    rw [List.foldl_cons, ih (stepState s t), List.map_cons, List.getLastD_cons]
    simp only [stepState, renderStep]

/-- `getLastD` commutes with mapping by a function. -/
theorem getLastD_map_mul (ts : List ℚ) (d : ℚ) :
    (ts.map (fun u => u * 0.001)).getLastD (d * 0.001) = ts.getLastD d * 0.001 := by
  induction ts generalizing d with
  | nil => simp
  | cons t ts ih => rw [List.map_cons, List.getLastD_cons, List.getLastD_cons, ih]

/-- C6: on a monotonically non-decreasing timestamp stream (starting at or
after the implicit initial `previousTime = 0`), the rotation accumulator after
frame `i` equals the sum of the delta times observed in frames `1..i`, and it
never decreases — in particular it is never reset. -/
theorem rotation_monotone_sum_of_deltas (ts : List ℚ) (t : ℚ)
    (h : List.Chain (· ≤ ·) 0 (ts ++ [t])) :
    (runFrames (ts ++ [t])).cubeRotation =
      (framesDeltas clockInit (ts ++ [t])).sum ∧
    (runFrames ts).cubeRotation ≤ (runFrames (ts ++ [t])).cubeRotation := by
  constructor
  · rw [runFrames, foldl_stepState_cubeRotation]
    simp [clockInit]
  · have hpair : List.Pairwise (· ≤ ·) (0 :: (ts ++ [t])) :=
      List.chain_iff_pairwise.mp h
    have hlast : ts.getLastD 0 ≤ t := by
      have hmem : ts.getLastD 0 ∈ 0 :: ts := List.getLastD_mem_cons ts 0
      have hall : ∀ a ∈ 0 :: ts, ∀ b ∈ [t], a ≤ b := by
        have hpair' : List.Pairwise (· ≤ ·) ((0 :: ts) ++ [t]) := by
          simpa using hpair
        exact fun a ha b hb => (List.pairwise_append.mp hpair').2.2 a ha b hb
      exact hall _ hmem t (by simp)
    have hprev : (runFrames ts).previousTime = ts.getLastD 0 * 0.001 := by
      rw [runFrames, foldl_stepState_previousTime]
      rw [show (clockInit.previousTime) = 0 * 0.001 by simp [clockInit]]
      exact getLastD_map_mul ts 0
    have hstep : runFrames (ts ++ [t]) = stepState (runFrames ts) t := by
      simp [runFrames, List.foldl_append]
    rw [hstep]
    simp only [stepState]
    have : ts.getLastD 0 * 0.001 ≤ t * 0.001 := by
      have h001 : (0 : ℚ) ≤ 0.001 := by norm_num
      exact mul_le_mul_of_nonneg_right hlast h001
    simp only [renderStep]
    rw [hprev] at *
    linarith [this]

/-- Witness for C6: timestamps 1000ms, 1500ms, then 3000ms form a
non-decreasing stream. -/
theorem rotation_monotone_sum_of_deltas_witness :
    List.Chain (· ≤ ·) (0 : ℚ) (([1000, 1500] : List ℚ) ++ [3000]) ∧
    ((runFrames (([1000, 1500] : List ℚ) ++ [3000])).cubeRotation =
      (framesDeltas clockInit (([1000, 1500] : List ℚ) ++ [3000])).sum ∧
     (runFrames [1000, 1500]).cubeRotation ≤
      (runFrames (([1000, 1500] : List ℚ) ++ [3000])).cubeRotation) :=
  ⟨by norm_num [List.chain_cons],
   rotation_monotone_sum_of_deltas [1000, 1500] 3000
     (by norm_num [List.chain_cons])⟩

/-- C8: `previousTime` starts at 0, so the first frame's `deltaTime` is the
first converted timestamp (`nowSeconds = now * 0.001`) itself; and every
invocation stores the converted timestamp into `previousTime`. -/
theorem first_delta_equals_first_timestamp (t : ℚ) (s : ClockState) (u : ℚ) :
    (renderStep clockInit t).deltaTime = t * 0.001 ∧
    (renderStep s u).state.previousTime = u * 0.001 := by
  constructor
  · simp [renderStep, clockInit]
  · simp [renderStep]

/-! ### Model-view matrix construction (src/src/draw-scene.js, lines 38–66)

The 4×4 matrices act on column vectors; `cosF`/`sinF` stand for the cosine
and sine functions (the composition claims hold for any pair of functions, so
in particular for the real ones). -/

/-- Square 4×4 matrices over the exact scalars. -/
abbrev Mat4 := Matrix (Fin 4) (Fin 4) ℚ

/-- Modelled from the spec: the external glMatrix collaborator (§2 "Matrix
library (external collaborator)", §4.3) — `mat4.translate(m, m, [x, y, z])`
right-multiplies `m` by this standard homogeneous translation matrix. -/
def translationMat (x y z : ℚ) : Mat4 :=
  !![1, 0, 0, x;
     0, 1, 0, y;
     0, 0, 1, z;
     0, 0, 0, 1]

/-- Modelled from the spec: the axis-angle (Rodrigues) rotation matrix the
matrix library's `mat4.rotate` builds for an axis `(x, y, z)` and an angle
with cosine `c` and sine `s`; the call sites pass only the unit axes Z, Y, X,
for which the library's axis normalization is the identity. -/
def rotationMat (c s x y z : ℚ) : Mat4 :=
  !![x*x*(1-c) + c,   x*y*(1-c) - z*s, x*z*(1-c) + y*s, 0;
     y*x*(1-c) + z*s, y*y*(1-c) + c,   y*z*(1-c) - x*s, 0;
     z*x*(1-c) - y*s, z*y*(1-c) + x*s, z*z*(1-c) + c,   0;
     0, 0, 0, 1]

/-- The model-view matrix `drawScene` builds (draw-scene.js lines 38–66):
start from `mat4.create()` (the identity), translate by `[-0.0, 0.0, -6.0]`,
rotate about Z by `cubeRotation`, about Y by `cubeRotation * 0.7`, about X by
`cubeRotation * 0.3`, each composed by right-multiplication. -/
def drawSceneModelView (cosF sinF : ℚ → ℚ) (r : ℚ) : Mat4 :=
  let m : Mat4 := 1
  let m := m * translationMat (-0) 0 (-6)
  let m := m * rotationMat (cosF r) (sinF r) 0 0 1
  let m := m * rotationMat (cosF (r * 0.7)) (sinF (r * 0.7)) 0 1 0
  let m := m * rotationMat (cosF (r * 0.3)) (sinF (r * 0.3)) 1 0 0
  m

/-- The spec's named transform `RotateZ` (standard rotation about Z). -/
def rotateZ (c s : ℚ) : Mat4 :=
  !![c, -s, 0, 0;
     s, c, 0, 0;
     0, 0, 1, 0;
     0, 0, 0, 1]

/-- The spec's named transform `RotateY` (standard rotation about Y). -/
def rotateY (c s : ℚ) : Mat4 :=
  !![c, 0, s, 0;
     0, 1, 0, 0;
     -s, 0, c, 0;
     0, 0, 0, 1]

/-- The spec's named transform `RotateX` (standard rotation about X). -/
def rotateX (c s : ℚ) : Mat4 :=
  !![1, 0, 0, 0;
     0, c, -s, 0;
     0, s, c, 0;
     0, 0, 0, 1]

/-- The spec's stated composition (§8 "Matrix composition order"):
`Translate(0,0,-6) * RotateZ(r) * RotateY(0.7r) * RotateX(0.3r)`. -/
def specModelView (cosF sinF : ℚ → ℚ) (r : ℚ) : Mat4 :=
  translationMat 0 0 (-6) * rotateZ (cosF r) (sinF r) *
    rotateY (cosF (0.7 * r)) (sinF (0.7 * r)) *
    rotateX (cosF (0.3 * r)) (sinF (0.3 * r))

/-- The Rodrigues matrix at the unit Z axis is the standard Z rotation. -/
theorem rotationMat_z (c s : ℚ) : rotationMat c s 0 0 1 = rotateZ c s := by
  ext i j
  fin_cases i <;> fin_cases j <;>
    simp [rotationMat, rotateZ, Matrix.vecHead, Matrix.vecTail] <;> ring

/-- The Rodrigues matrix at the unit Y axis is the standard Y rotation. -/
theorem rotationMat_y (c s : ℚ) : rotationMat c s 0 1 0 = rotateY c s := by
  ext i j
  fin_cases i <;> fin_cases j <;>
    simp [rotationMat, rotateY, Matrix.vecHead, Matrix.vecTail] <;> ring

/-- The Rodrigues matrix at the unit X axis is the standard X rotation. -/
theorem rotationMat_x (c s : ℚ) : rotationMat c s 1 0 0 = rotateX c s := by
  ext i j
  fin_cases i <;> fin_cases j <;>
    simp [rotationMat, rotateX, Matrix.vecHead, Matrix.vecTail] <;> ring

/-- C7: the model-view matrix `drawScene` builds equals the spec's
composition `Translate(0,0,-6) * RotateZ(r) * RotateY(0.7r) * RotateX(0.3r)`,
for any cosine/sine functions and any rotation amount. -/
theorem modelview_composition_order (cosF sinF : ℚ → ℚ) (r : ℚ) :
    drawSceneModelView cosF sinF r = specModelView cosF sinF r := by
  have ht : translationMat (-0) 0 (-6) = translationMat 0 0 (-6) := by
    norm_num [translationMat]
  simp only [drawSceneModelView, specModelView, rotationMat_z, rotationMat_y,
    rotationMat_x, ht, one_mul, mul_comm r (0.7 : ℚ), mul_comm r (0.3 : ℚ)]

/-! ### Shader initialization and the startup draw (src/unnamed/part_000,
lines 46–83 and 139–187)

The graphics context is an external collaborator; what matters to the claims
is which user-visible effects the code emits (alerts, resource deletions, the
draw call) and what the shader-program result is.  `GLEnv` is the
environment's verdict on each compile/link. -/

/-- The observable effects relevant to error handling and the startup draw. -/
inductive GLEffect where
  | alert (msg : String)
  | deleteShader
  | deleteProgram
  | drawSceneCall (hasProgram : Bool) (rotation : Option ℚ)
deriving Repr, DecidableEq

/-- The environment's verdict on each shader compile and on the link, with
the corresponding info logs. -/
structure GLEnv where
  vsCompileOk : Bool
  fsCompileOk : Bool
  linkOk : Bool
  vsLog : String
  fsLog : String
  progLog : String
deriving Repr, DecidableEq

/-- `loadShader` (lines 168–187): compile the source; on failure alert with
`gl.getShaderInfoLog(shader)`, delete the shader and return null. -/
def loadShader (ok : Bool) (log : String) : Option Unit × List GLEffect :=
  if ok then (some (), [])
  else (none,
    [GLEffect.alert ("An error occurred compiling the shaders: " ++ log),
     GLEffect.deleteShader])

/-- `initShaderProgram` (lines 139–162): load both shaders, then create,
attach and link the program unconditionally; on link failure alert with
`gl.getProgramInfoLog(shaderProgram)` and return null.  The source has no
`gl.deleteProgram` call on this path. -/
def initShaderProgram (env : GLEnv) : Option Unit × List GLEffect :=
  let vs := loadShader env.vsCompileOk env.vsLog
  let fs := loadShader env.fsCompileOk env.fsLog
  if env.linkOk then (some (), vs.2 ++ fs.2)
  else (none, vs.2 ++ fs.2 ++
    [GLEffect.alert ("Unable to initialize the shader program: " ++ env.progLog)])

/-- `main` (lines 46–83) up to and including its one-time startup draw: if no
GL context, alert and stop; otherwise build the program and call
`drawScene(gl, programInfo, buffers)` unconditionally — with no null check on
the program and with no rotation argument (line 83). -/
def mainEffects (env : GLEnv) (glAvailable : Bool) : List GLEffect :=
  if glAvailable then
    let sp := initShaderProgram env
    sp.2 ++ [GLEffect.drawSceneCall sp.1.isSome none]
  else [GLEffect.alert "Unable to initialize WebGL. Your browser may not support it."]

/-- A run in which both shaders compile but linking fails. -/
def envLinkFail : GLEnv := ⟨true, true, false, "", "", "link log"⟩

/-- C9 counterexample: when linking fails the user is alerted and the caller
receives null, but the program resource is NOT released (no `deleteProgram`
effect exists) and `main` still proceeds to the startup draw with the absent
program — refuting the claim as stated. -/
theorem shader_failure_claim_counterexample :
    (initShaderProgram envLinkFail).1 = none ∧
    GLEffect.alert ("Unable to initialize the shader program: link log") ∈
      (initShaderProgram envLinkFail).2 ∧
    GLEffect.deleteProgram ∉ (initShaderProgram envLinkFail).2 ∧
    GLEffect.drawSceneCall false none ∈ mainEffects envLinkFail true := by
  refine ⟨rfl, ?_, ?_, ?_⟩ <;>
    simp [initShaderProgram, loadShader, mainEffects, envLinkFail]

/-- C9 amended: on a compile failure the user is alerted with the shader info
log, the shader is deleted and null is returned; on a link failure the user
is alerted with the program info log and the caller receives null, but the
program object is not released, and `main` does not check the result — it
proceeds to the startup draw with the absent program. -/
theorem shader_failure_handling (env : GLEnv) (hvs : env.vsCompileOk = false)
    (hlink : env.linkOk = false) :
    GLEffect.alert ("An error occurred compiling the shaders: " ++ env.vsLog) ∈
      (initShaderProgram env).2 ∧
    GLEffect.deleteShader ∈ (initShaderProgram env).2 ∧
    GLEffect.alert ("Unable to initialize the shader program: " ++ env.progLog) ∈
      (initShaderProgram env).2 ∧
    (initShaderProgram env).1 = none ∧
    GLEffect.deleteProgram ∉ (initShaderProgram env).2 ∧
    GLEffect.drawSceneCall false none ∈ mainEffects env true := by
  cases hfs : env.fsCompileOk <;>
    simp [initShaderProgram, loadShader, mainEffects, hvs, hlink, hfs]

/-- A run in which the vertex shader fails to compile and linking fails. -/
def envBothFail : GLEnv := ⟨false, true, false, "vs log", "", "prog log"⟩

/-- Witness for C9 (amended) at the concrete failing environment. -/
theorem shader_failure_handling_witness :
    envBothFail.vsCompileOk = false ∧ envBothFail.linkOk = false ∧
    (GLEffect.alert ("An error occurred compiling the shaders: " ++ envBothFail.vsLog) ∈
      (initShaderProgram envBothFail).2 ∧
     GLEffect.deleteShader ∈ (initShaderProgram envBothFail).2 ∧
     GLEffect.alert ("Unable to initialize the shader program: " ++ envBothFail.progLog) ∈
      (initShaderProgram envBothFail).2 ∧
     (initShaderProgram envBothFail).1 = none ∧
     GLEffect.deleteProgram ∉ (initShaderProgram envBothFail).2 ∧
     GLEffect.drawSceneCall false none ∈ mainEffects envBothFail true) :=
  ⟨rfl, rfl, shader_failure_handling envBothFail rfl rfl⟩

/-- The three rotation amounts `drawScene` feeds to `mat4.rotate`
(draw-scene.js lines 52, 58, 64): `cubeRotation`, `cubeRotation * 0.7`,
`cubeRotation * 0.3`.  A missing `cubeRotation` argument is JS `undefined`
(`none`), and `undefined * 0.7` is not a number. -/
def drawSceneAngles (cubeRotation : Option ℚ) : List (Option ℚ) :=
  [cubeRotation, cubeRotation.map (fun v => v * 0.7),
   cubeRotation.map (fun v => v * 0.3)]

/-- C10: the one-time startup draw (line 83) passes no rotation argument, so
all three rotate amounts are undefined rather than numbers, while every
per-frame draw (line 107) passes the accumulated `cubeRotation`. -/
theorem startup_draw_rotation_undefined (env : GLEnv) (s : ClockState)
    (t r : ℚ) :
    GLEffect.drawSceneCall (initShaderProgram env).1.isSome none ∈
      mainEffects env true ∧
    drawSceneAngles none = [none, none, none] ∧
    (renderStep s t).drawArg = some s.cubeRotation ∧
    drawSceneAngles (some r) = [some r, some (r * 0.7), some (r * 0.3)] := by
  refine ⟨?_, rfl, rfl, rfl⟩
  simp [mainEffects]

end WebGLCube
